import Mathlib

/-!
Verification of the `libsl-machine` finite-state-machine library
(`src/libsl-machine/state_machine.c`, `state_machine.h`).

The C code is shallowly embedded as follows:
* `uint32_t` values (state identities, the legality bitmask, the state count)
  become `Nat`; where C wraps modulo `2 ^ 32` the model takes `% 2 ^ 32`
  explicitly.
* The pointer `fsm->actual_state` always points into the array `fsm->states`;
  it is modelled as the index of the state it points to.
* Callback function pointers (`fsm_state_run_t`, `fsm_state_enter_t`) are
  opaque to the library; they are modelled as optional values of opaque types
  `R` (stay/run callbacks) and `E` (enter callbacks), with `none` playing the
  role of `NULL`.  Since the library only ever *invokes* the callbacks, the
  dispatcher returns the list of invocations it performs (`FsmEvent`), so
  that "callback f was called with these arguments" is observable.
* A possibly-NULL `fsm_t *` argument becomes `Option (Fsm R E)`.
* C's conversion from `int` to `_Bool` (used by the `return(-1)` branches of
  `state_machine_add_state` / `state_machine_go_to_state`) and to `uint32_t`
  (used by the `return(-1)` branch of `state_machine_run`) are modelled
  exactly by `cBoolOfInt` / `cUInt32OfInt`.
-/

namespace LibSlMachine

/-- C conversion of an `int` value to `_Bool`: the result is `false` when the
value compares equal to zero, `true` otherwise (C17 §6.3.1.2). -/
def cBoolOfInt (n : Int) : Bool :=
  n != 0

/-- C conversion of an `int` value to `uint32_t`: reduction modulo `2 ^ 32`
(C17 §6.3.1.3); in particular `(uint32_t)(-1) = 4294967295`. -/
def cUInt32OfInt (n : Int) : Nat :=
  (n % (2 ^ 32 : Int)).toNat

/-- `state_private_t` from `state_machine.c`: the per-state private data.
`run` and `enter` hold the two callback function pointers (`none` = `NULL`).
In the C source the two pointers are left indeterminate by `malloc` until
`state_machine_add_state` stores them; the model initialises them to `none`
(no claim depends on reading them before registration). -/
structure StatePrivate (R E : Type) where
  enabled : Bool
  run : Option R
  enter : Option E
  deriving DecidableEq

/-- `fsm_state_t` from `state_machine.h`: one state record.
`valid_target` is the `uint32_t` bitmask of legal transition targets. -/
structure FsmState (R E : Type) where
  id : Nat
  valid_target : Nat
  private_data : StatePrivate R E
  deriving DecidableEq

/-- `fsm_t` from `state_machine.h`.  The `actual_state` pointer
(`&fsm->states[i]`) is modelled as the index `i`.  The function-pointer
fields (`sm_run`, `get_state`, `add_state`, `add_transition`, `go_to_state`)
always hold the same static functions of `state_machine.c` and carry no
state, so they are not part of the data model. -/
structure Fsm (R E : Type) where
  actual_state : Nat
  target_state : Nat
  states : List (FsmState R E)
  state_nr : Nat
  deriving DecidableEq

variable {R E A : Type}

/-- The placeholder value used to make reading `fsm->states[i]` total; a
well-formed machine never reads it. -/
def defaultState (R E : Type) : FsmState R E :=
  { id := 0, valid_target := 0
    private_data := { enabled := false, run := none, enter := none } }

/-- Dereference the (modelled) pointer `&fsm->states[i]`. -/
def Fsm.stateAt (fsm : Fsm R E) (i : Nat) : FsmState R E :=
  fsm.states.getD i (defaultState R E)

/-- An observable callback invocation performed by `state_machine_run`:
either a stay/run callback called with `arg`, or an enter callback called
with the exit state's identity and `arg`. -/
inductive FsmEvent (R E A : Type) where
  | stay (cb : R) (arg : A)
  | enter (cb : E) (exit_state_id : Nat) (arg : A)
  deriving DecidableEq

/-- Whether an event is an enter-callback invocation. -/
def FsmEvent.isEnter : FsmEvent R E A → Bool
  | .stay _ _ => false
  | .enter _ _ _ => true

/-- The invocations performed by `if (private_data->run != NULL)
private_data->run(arg);`. -/
def stayEvents (cb : Option R) (arg : A) : List (FsmEvent R E A) :=
  match cb with
  | some f => [FsmEvent.stay f arg]
  | none => []

/-- The invocations performed by `if (private_data->enter != NULL)
private_data->enter(id, arg);`. -/
def enterEvents (cb : Option E) (exit_state_id : Nat) (arg : A) :
    List (FsmEvent R E A) :=
  match cb with
  | some f => [FsmEvent.enter f exit_state_id arg]
  | none => []

/-- `state_machine_init`: allocates the machine, gives every slot `cntr`
the record `{ id = cntr, valid_target = 0, enabled = false }`, and sets
`actual_state = &states[initial_state]`, `target_state = initial_state`
with **no bounds check** on `initial_state`, exactly as the C source.
The unused `void *arg` parameter is dropped. -/
def state_machine_init (R E : Type) (state_nr initial_state : Nat) :
    Fsm R E :=
  { state_nr := state_nr
    states := (List.range state_nr).map (fun cntr =>
      { id := cntr, valid_target := 0
        private_data := { enabled := false, run := none, enter := none } })
    actual_state := initial_state
    target_state := initial_state }

/-- `state_machine_get_state`: `return(fsm->actual_state->id);`. -/
def state_machine_get_state (fsm : Fsm R E) : Nat :=
  (fsm.stateAt fsm.actual_state).id

/-- `state_machine_add_state`.  On a NULL machine the C source executes
`return(-1)` from a function returning `_Bool`, which converts to `true`;
the model reproduces that via `cBoolOfInt (-1)`.  Otherwise: reject
`id >= state_nr`; if the slot is not yet enabled, enable it and store both
callbacks and return `true`; if it is already enabled, return `false`
leaving the slot untouched. -/
def state_machine_add_state :
    Option (Fsm R E) → Nat → Option R → Option E → Option (Fsm R E) × Bool
  | none, _, _, _ => (none, cBoolOfInt (-1))
  | some fsm, id, run, enter =>
    if id ≥ fsm.state_nr then
      (some fsm, false)
    else if (fsm.stateAt id).private_data.enabled = false then
      (some { fsm with
                states := fsm.states.set id
                  { fsm.stateAt id with
                      private_data := { enabled := true, run := run, enter := enter } } },
       true)
    else
      (some fsm, false)

/-- `state_machine_add_transition`.  The C source performs **no** NULL check
here (it dereferences `fsm` unconditionally), so the model takes a plain
`Fsm`.  Reject either identity `≥ state_nr`; otherwise OR the bit
`0x1 << target_id` into the source state's `valid_target` register
(`uint32_t` arithmetic, hence the reduction modulo `2 ^ 32`). -/
def state_machine_add_transition (fsm : Fsm R E)
    (state_id target_id : Nat) : Fsm R E × Bool :=
  if state_id ≥ fsm.state_nr ∨ target_id ≥ fsm.state_nr then
    (fsm, false)
  else
    let target_reg := (fsm.stateAt state_id).valid_target
    let target_reg2 := (target_reg ||| (1 <<< target_id)) % 2 ^ 32
    ({ fsm with
         states := fsm.states.set state_id
           { fsm.stateAt state_id with valid_target := target_reg2 } },
     true)

/-- `state_machine_run`.  On NULL: `return(-1)` from a `uint32_t` function,
i.e. `4294967295`, with no callback invoked.  If the actual state's id
equals the target, invoke the actual state's run callback (when non-NULL)
and leave the machine unchanged; otherwise remember the old identity via
`get_state`, repoint `actual_state` to `&states[target_state]`, and invoke
the new state's enter callback (when non-NULL) with that old identity.
Returns `sm->actual_state->id` after the step, together with the updated
machine and the list of callback invocations. -/
def state_machine_run :
    Option (Fsm R E) → A → Option (Fsm R E) × Nat × List (FsmEvent R E A)
  | none, _ => (none, cUInt32OfInt (-1), [])
  | some fsm, arg =>
    if (fsm.stateAt fsm.actual_state).id = fsm.target_state then
      (some fsm, (fsm.stateAt fsm.actual_state).id,
        stayEvents (fsm.stateAt fsm.actual_state).private_data.run arg)
    else
      let id := state_machine_get_state fsm
      let fsm2 : Fsm R E := { fsm with actual_state := fsm.target_state }
      (some fsm2, (fsm2.stateAt fsm2.actual_state).id,
        enterEvents (fsm2.stateAt fsm2.actual_state).private_data.enter id arg)

/-- `state_machine_go_to_state`.  On NULL the C source executes
`return(-1)` from a `_Bool` function, i.e. `true` (`cBoolOfInt (-1)`).
Otherwise reject `target_id >= state_nr`; then test the bit
`0x1 << target_id` in the **actual** state's `valid_target` mask: if set,
store `target_state = target_id` and return `true`, else return `false`. -/
def state_machine_go_to_state :
    Option (Fsm R E) → Nat → Option (Fsm R E) × Bool
  | none, _ => (none, cBoolOfInt (-1))
  | some fsm, target_id =>
    if target_id ≥ fsm.state_nr then
      (some fsm, false)
    else if (fsm.stateAt fsm.actual_state).valid_target &&& (1 <<< target_id) ≠ 0 then
      (some { fsm with target_state := target_id }, true)
    else
      (some fsm, false)

/-- Membership of `target_id` in an `allowed_targets` bitmask, exactly the
test `(state_mask & (0x1 << target_id)) != 0` of the C source. -/
def maskMem (mask target_id : Nat) : Prop :=
  mask &&& (1 <<< target_id) ≠ 0

instance (mask t : Nat) : Decidable (maskMem mask t) := by
  unfold maskMem
  infer_instance

/-- Well-formed machine: the states array really has `state_nr` slots, the
actual and target references are in range, slot `i` carries identity `i`,
and every mask fits in a `uint32_t` — all of which hold for any machine
built by `state_machine_init` with an in-range initial state and evolved
through the API. -/
def Fsm.WF (fsm : Fsm R E) : Prop :=
  fsm.states.length = fsm.state_nr ∧
  fsm.actual_state < fsm.state_nr ∧
  fsm.target_state < fsm.state_nr ∧
  (∀ i, i < fsm.state_nr → (fsm.stateAt i).id = i) ∧
  (∀ i, i < fsm.state_nr → (fsm.stateAt i).valid_target < 2 ^ 32)

instance (fsm : Fsm R E) : Decidable fsm.WF := by
  unfold Fsm.WF
  infer_instance

/-! Concrete machines used as witnesses.  Callback "function pointers" are
modelled as `Nat` tags, so each registered callback is distinguishable.
`exM` is a 3-state machine built through the API: states 0, 1, 2 registered
with stay callbacks 10, 11, 12 and enter callbacks 20, 21, 22, and edges
0→0, 0→1, 0→2 and 1→2; it sits in state 0 with no transition pending. -/

def exM : Fsm Nat Nat :=
  let m0 := state_machine_init Nat Nat 3 0
  let m1 := (state_machine_add_state (some m0) 0 (some 10) (some 20)).fst.getD m0
  let m2 := (state_machine_add_state (some m1) 1 (some 11) (some 21)).fst.getD m1
  let m3 := (state_machine_add_state (some m2) 2 (some 12) (some 22)).fst.getD m2
  let m4 := (state_machine_add_transition m3 0 0).fst
  let m5 := (state_machine_add_transition m4 0 1).fst
  let m6 := (state_machine_add_transition m5 0 2).fst
  (state_machine_add_transition m6 1 2).fst

/-- `exM` after a successful request for state 1: the transition 0→1 is
pending (`actual_state = 0`, `target_state = 1`). -/
def exMPending : Fsm Nat Nat :=
  (state_machine_go_to_state (some exM) 1).fst.getD exM

/-- C1: Run dispatch.  For every machine, if the actual state's identity
equals the target, `run` invokes the actual state's stay callback (when
present) with `arg`, leaves the machine unchanged, and returns the current
identity; if they differ, `run` repoints the actual state to
`states[target]`, invokes the new actual state's enter callback (when
present) with the identity of the state being left and `arg`, and returns
the new actual state's identity. -/
theorem run_dispatch_correct (fsm : Fsm R E) (arg : A) :
    ((fsm.stateAt fsm.actual_state).id = fsm.target_state →
      state_machine_run (some fsm) arg =
        (some fsm, (fsm.stateAt fsm.actual_state).id,
          stayEvents (fsm.stateAt fsm.actual_state).private_data.run arg)) ∧
    ((fsm.stateAt fsm.actual_state).id ≠ fsm.target_state →
      state_machine_run (some fsm) arg =
        (some { fsm with actual_state := fsm.target_state },
          (fsm.stateAt fsm.target_state).id,
          enterEvents (fsm.stateAt fsm.target_state).private_data.enter
            (fsm.stateAt fsm.actual_state).id arg)) := by
  constructor <;> intro h
  · simp only [state_machine_run, if_pos h]
  · simp only [state_machine_run, if_neg h, state_machine_get_state]
    rfl

/-- Witness for C1: both branches of the dispatch theorem applied to the
concrete machines `exM` (no transition pending: state 0's stay callback 10
fires and the machine is unchanged) and `exMPending` (transition 0→1
pending: state 1's enter callback 21 fires with exit identity 0). -/
theorem run_dispatch_correct_witness :
    ((exM.stateAt exM.actual_state).id = exM.target_state ∧
      state_machine_run (some exM) (7 : Nat) =
        (some exM, (exM.stateAt exM.actual_state).id,
          stayEvents (exM.stateAt exM.actual_state).private_data.run 7)) ∧
    ((exMPending.stateAt exMPending.actual_state).id ≠ exMPending.target_state ∧
      state_machine_run (some exMPending) (7 : Nat) =
        (some { exMPending with actual_state := exMPending.target_state },
          (exMPending.stateAt exMPending.target_state).id,
          enterEvents (exMPending.stateAt exMPending.target_state).private_data.enter
            (exMPending.stateAt exMPending.actual_state).id 7)) :=
  ⟨⟨by decide, (run_dispatch_correct exM 7).1 (by decide)⟩,
   ⟨by decide, (run_dispatch_correct exMPending 7).2 (by decide)⟩⟩

/-- C2: Transition request.  For every (non-NULL) machine and every
`target_id`, `state_machine_go_to_state` succeeds exactly when `target_id`
is below `state_nr` and its bit is set in the actual state's
`valid_target` mask; on success only `target_state` is updated (the actual
state is untouched), on failure the machine is returned unchanged. -/
theorem go_to_state_correct (fsm : Fsm R E) (t : Nat) :
    state_machine_go_to_state (some fsm) t =
      if t < fsm.state_nr ∧ maskMem (fsm.stateAt fsm.actual_state).valid_target t then
        (some { fsm with target_state := t }, true)
      else
        (some fsm, false) := by
  simp only [state_machine_go_to_state, maskMem]
  by_cases h1 : t ≥ fsm.state_nr
  · rw [if_pos h1,
      if_neg (show ¬(t < fsm.state_nr ∧
          (fsm.stateAt fsm.actual_state).valid_target &&& 1 <<< t ≠ 0) from
        fun hc => absurd hc.1 (by omega))]
  · by_cases h2 : (fsm.stateAt fsm.actual_state).valid_target &&& 1 <<< t ≠ 0
    · rw [if_neg h1, if_pos h2, if_pos ⟨by omega, h2⟩]
    · rw [if_neg h1, if_neg h2,
        if_neg (show ¬(t < fsm.state_nr ∧
            (fsm.stateAt fsm.actual_state).valid_target &&& 1 <<< t ≠ 0) from
          fun hc => h2 hc.2)]

/-- Reading back the slot just written by `states.set`. -/
theorem stateAt_set_self (fsm : Fsm R E) (i : Nat) (s : FsmState R E)
    (h : i < fsm.states.length) :
    ({ fsm with states := fsm.states.set i s } : Fsm R E).stateAt i = s := by
  simp [Fsm.stateAt, List.getElem?_set_self h]

/-- Reading any other slot after `states.set`. -/
theorem stateAt_set_ne (fsm : Fsm R E) (i j : Nat) (s : FsmState R E)
    (h : i ≠ j) :
    ({ fsm with states := fsm.states.set i s } : Fsm R E).stateAt j =
      fsm.stateAt j := by
  simp [Fsm.stateAt, List.getElem?_set_ne h]

/-- C3: State registration.  `state_machine_add_state` on an out-of-range
identity fails and mutates nothing; on an already-enabled identity it fails
and the machine (hence the previously stored callbacks) is unchanged;
otherwise it enables the slot, stores both callbacks and succeeds — and a
second registration of the same identity then fails, leaving the machine
produced by the first registration intact, so registration succeeds exactly
once per identity. -/
theorem add_state_correct (fsm : Fsm R E) (id : Nat) (r : Option R) (e : Option E)
    (hlen : fsm.state_nr ≤ fsm.states.length) :
    (id ≥ fsm.state_nr →
      state_machine_add_state (some fsm) id r e = (some fsm, false)) ∧
    ((fsm.stateAt id).private_data.enabled = true →
      state_machine_add_state (some fsm) id r e = (some fsm, false)) ∧
    (id < fsm.state_nr → (fsm.stateAt id).private_data.enabled = false →
      state_machine_add_state (some fsm) id r e =
        (some { fsm with
                  states := fsm.states.set id
                    { fsm.stateAt id with
                        private_data := { enabled := true, run := r, enter := e } } },
         true) ∧
      ∀ r2 e2,
        state_machine_add_state (state_machine_add_state (some fsm) id r e).fst id r2 e2 =
          ((state_machine_add_state (some fsm) id r e).fst, false)) := by
  refine ⟨fun hge => ?_, fun hen => ?_, fun hlt hdis => ?_⟩
  · simp only [state_machine_add_state, if_pos hge]
  · by_cases hge : id ≥ fsm.state_nr
    · simp only [state_machine_add_state, if_pos hge]
    · simp only [state_machine_add_state, if_neg hge, hen]
      simp
  · have hfirst :
        state_machine_add_state (some fsm) id r e =
          (some { fsm with
                    states := fsm.states.set id
                      { fsm.stateAt id with
                          private_data := { enabled := true, run := r, enter := e } } },
           true) := by
      simp only [state_machine_add_state, if_neg (by omega : ¬ id ≥ fsm.state_nr), hdis]
      simp
    refine ⟨hfirst, fun r2 e2 => ?_⟩
    rw [hfirst]
    simp only [state_machine_add_state, if_neg (by omega : ¬ id ≥ fsm.state_nr)]
    rw [stateAt_set_self fsm id _ (by omega)]
    simp

/-- Witness for C3: on the freshly created 3-state machine, registering
state 1 succeeds and stores the callbacks, and a second registration of
identity 1 fails leaving the first registration intact. -/
theorem add_state_correct_witness :
    (state_machine_init Nat Nat 3 0).state_nr ≤ (state_machine_init Nat Nat 3 0).states.length ∧
    (1 < (state_machine_init Nat Nat 3 0).state_nr →
      ((state_machine_init Nat Nat 3 0).stateAt 1).private_data.enabled = false →
      state_machine_add_state (some (state_machine_init Nat Nat 3 0)) 1 (some 5) (some 6) =
        (some { state_machine_init Nat Nat 3 0 with
                  states := (state_machine_init Nat Nat 3 0).states.set 1
                    { (state_machine_init Nat Nat 3 0).stateAt 1 with
                        private_data := { enabled := true, run := some 5, enter := some 6 } } },
         true) ∧
      ∀ r2 e2,
        state_machine_add_state
            (state_machine_add_state (some (state_machine_init Nat Nat 3 0)) 1 (some 5) (some 6)).fst
            1 r2 e2 =
          ((state_machine_add_state (some (state_machine_init Nat Nat 3 0)) 1 (some 5) (some 6)).fst,
           false)) :=
  ⟨by decide,
   (add_state_correct (state_machine_init Nat Nat 3 0) 1 (some 5) (some 6) (by decide)).2.2⟩

/-- Setting a bit makes the membership test of the C source succeed. -/
theorem maskMem_or_self (mask b : Nat) : maskMem (mask ||| (1 <<< b)) b := by
  unfold maskMem
  rw [Nat.one_shiftLeft, Nat.and_two_pow]
  have h1 : (mask ||| 2 ^ b).testBit b = true := by
    simp [Nat.testBit_or, Nat.testBit_two_pow_self]
  rw [h1]
  simp

/-- A `uint32` mask with one more bit set still fits in 32 bits, so the
reduction modulo `2 ^ 32` performed by the C assignment is the identity. -/
theorem or_shift_mod32 (mask b : Nat) (hm : mask < 2 ^ 32) (hb : b < 32) :
    (mask ||| (1 <<< b)) % 2 ^ 32 = mask ||| (1 <<< b) := by
  apply Nat.mod_eq_of_lt
  apply Nat.or_lt_two_pow hm
  rw [Nat.one_shiftLeft]
  have hle : (2 : Nat) ^ b ≤ 2 ^ 31 := Nat.pow_le_pow_right (by omega) (by omega)
  exact Nat.lt_of_le_of_lt hle (by norm_num)

/-- The machine `fsm` with state `i`'s `valid_target` register replaced by
`m`: the write performed by the success branch of
`state_machine_add_transition`. -/
def Fsm.withMask (fsm : Fsm R E) (i m : Nat) : Fsm R E :=
  { fsm with
      states := fsm.states.set i { fsm.stateAt i with valid_target := m } }

/-- Reading back the slot written by `Fsm.withMask`. -/
theorem stateAt_withMask_self (fsm : Fsm R E) (i m : Nat)
    (h : i < fsm.states.length) :
    (fsm.withMask i m).stateAt i = { fsm.stateAt i with valid_target := m } :=
  stateAt_set_self fsm i _ h

/-- Writing a slot's current value back leaves the states array unchanged. -/
theorem set_stateAt_self (fsm : Fsm R E) (i : Nat) (h : i < fsm.states.length) :
    fsm.states.set i (fsm.stateAt i) = fsm.states := by
  apply List.ext_getElem?
  intro j
  by_cases hij : i = j
  · subst hij
    rw [List.getElem?_set_self h, List.getElem?_eq_getElem h]
    simp [Fsm.stateAt, List.getElem?_eq_getElem h]
  · rw [List.getElem?_set_ne hij]

/-- C4: Transition registration.  For a well-formed machine whose state
count respects the 32-bit mask limit, `state_machine_add_transition`
succeeds exactly when both identities are below `state_nr`; on failure the
machine is unchanged; on success `target_id`'s bit is afterwards set in
`state_id`'s `valid_target` mask, so that a subsequent
`state_machine_go_to_state` from `state_id` to `target_id` succeeds. -/
theorem add_transition_correct (fsm : Fsm R E) (a b : Nat)
    (hwf : fsm.WF) (h32 : fsm.state_nr ≤ 32) :
    ((state_machine_add_transition fsm a b).snd = true ↔
      a < fsm.state_nr ∧ b < fsm.state_nr) ∧
    (¬(a < fsm.state_nr ∧ b < fsm.state_nr) →
      (state_machine_add_transition fsm a b).fst = fsm) ∧
    (a < fsm.state_nr → b < fsm.state_nr →
      maskMem (((state_machine_add_transition fsm a b).fst).stateAt a).valid_target b ∧
      (fsm.actual_state = a →
        (state_machine_go_to_state (some (state_machine_add_transition fsm a b).fst) b).snd =
          true)) := by
  obtain ⟨hlen, hact, htgt, hid, hmaskwf⟩ := hwf
  by_cases hab : a < fsm.state_nr ∧ b < fsm.state_nr
  · obtain ⟨ha, hb⟩ := hab
    have hnot : ¬(a ≥ fsm.state_nr ∨ b ≥ fsm.state_nr) := by omega
    have hmod : ((fsm.stateAt a).valid_target ||| (1 <<< b)) % 2 ^ 32 =
        (fsm.stateAt a).valid_target ||| (1 <<< b) :=
      or_shift_mod32 _ b (hmaskwf a ha) (by omega)
    have hres : state_machine_add_transition fsm a b =
        (fsm.withMask a ((fsm.stateAt a).valid_target ||| (1 <<< b)), true) := by
      simp only [state_machine_add_transition, if_neg hnot, hmod]
      rfl
    have hslot : ((state_machine_add_transition fsm a b).fst).stateAt a =
        { fsm.stateAt a with
            valid_target := (fsm.stateAt a).valid_target ||| (1 <<< b) } := by
      rw [hres]
      exact stateAt_withMask_self fsm a _ (by omega)
    refine ⟨by rw [hres]; simp [ha, hb], fun hc => absurd ⟨ha, hb⟩ hc, fun _ _ => ?_⟩
    refine ⟨by rw [hslot]; exact maskMem_or_self _ b, fun hacteq => ?_⟩
    have hact2 : ((state_machine_add_transition fsm a b).fst).actual_state = a := by
      rw [hres]
      exact hacteq
    have hnr2 : ((state_machine_add_transition fsm a b).fst).state_nr = fsm.state_nr := by
      rw [hres]
      rfl
    simp only [state_machine_go_to_state, hact2, hnr2, hslot,
      if_neg (by omega : ¬ b ≥ fsm.state_nr)]
    rw [if_pos (show ((fsm.stateAt a).valid_target ||| 1 <<< b) &&& 1 <<< b ≠ 0 from
      maskMem_or_self (fsm.stateAt a).valid_target b)]
  · have hnot : a ≥ fsm.state_nr ∨ b ≥ fsm.state_nr := by omega
    have hres : state_machine_add_transition fsm a b = (fsm, false) := by
      simp only [state_machine_add_transition, if_pos hnot]
    refine ⟨by rw [hres]; simpa using hab, fun _ => by rw [hres], fun ha hb => ?_⟩
    exact absurd ⟨ha, hb⟩ hab

/-- Witness for C4: on the example machine (well formed, 3 ≤ 32 states),
adding the edge 1→2 succeeds, sets bit 2 of state 1's mask, and from state 1
the transition request to 2 then succeeds. -/
theorem add_transition_correct_witness :
    exM.WF ∧ exM.state_nr ≤ 32 ∧
    (((state_machine_add_transition exM 1 2).snd = true ↔
       1 < exM.state_nr ∧ 2 < exM.state_nr) ∧
     (¬(1 < exM.state_nr ∧ 2 < exM.state_nr) →
       (state_machine_add_transition exM 1 2).fst = exM) ∧
     (1 < exM.state_nr → 2 < exM.state_nr →
       maskMem (((state_machine_add_transition exM 1 2).fst).stateAt 1).valid_target 2 ∧
       (exM.actual_state = 1 →
         (state_machine_go_to_state (some (state_machine_add_transition exM 1 2).fst) 2).snd =
           true))) :=
  ⟨by decide, by decide, add_transition_correct exM 1 2 (by decide) (by decide)⟩

/-- C5: Idempotent edge registration.  Registering the edge `a→b` a second
time returns success and leaves the machine produced by the first
registration exactly as it was (same masks, hence same dispatch
behaviour). -/
theorem add_transition_idem (fsm : Fsm R E) (a b : Nat)
    (hwf : fsm.WF) (h32 : fsm.state_nr ≤ 32)
    (ha : a < fsm.state_nr) (hb : b < fsm.state_nr) :
    state_machine_add_transition (state_machine_add_transition fsm a b).fst a b =
      ((state_machine_add_transition fsm a b).fst, true) := by
  obtain ⟨hlen, hact, htgt, hid, hmaskwf⟩ := hwf
  have hnot : ¬(a ≥ fsm.state_nr ∨ b ≥ fsm.state_nr) := by omega
  have hmod : ((fsm.stateAt a).valid_target ||| (1 <<< b)) % 2 ^ 32 =
      (fsm.stateAt a).valid_target ||| (1 <<< b) :=
    or_shift_mod32 _ b (hmaskwf a ha) (by omega)
  have hres : state_machine_add_transition fsm a b =
      (fsm.withMask a ((fsm.stateAt a).valid_target ||| (1 <<< b)), true) := by
    simp only [state_machine_add_transition, if_neg hnot, hmod]
    rfl
  have hslot : ((state_machine_add_transition fsm a b).fst).stateAt a =
      { fsm.stateAt a with
          valid_target := (fsm.stateAt a).valid_target ||| (1 <<< b) } := by
    rw [hres]
    exact stateAt_withMask_self fsm a _ (by omega)
  have hnr2 : ((state_machine_add_transition fsm a b).fst).state_nr = fsm.state_nr := by
    rw [hres]
    rfl
  have hlen2 : a < ((state_machine_add_transition fsm a b).fst).states.length := by
    rw [hres]
    simp only [Fsm.withMask, List.length_set]
    omega
  have hwrite :
      ({ ((state_machine_add_transition fsm a b).fst).stateAt a with
          valid_target :=
            ((((state_machine_add_transition fsm a b).fst).stateAt a).valid_target |||
              (1 <<< b)) % 2 ^ 32 } : FsmState R E) =
        ((state_machine_add_transition fsm a b).fst).stateAt a := by
    rw [hslot]
    simp only
    rw [Nat.or_assoc, Nat.or_self, hmod]
  generalize hg : (state_machine_add_transition fsm a b).fst = m1 at hslot hnr2 hlen2 hwrite ⊢
  have hnot2 : ¬(a ≥ m1.state_nr ∨ b ≥ m1.state_nr) := by
    simp only [hnr2]
    exact hnot
  simp only [state_machine_add_transition, if_neg hnot2]
  rw [hwrite, set_stateAt_self m1 a hlen2]

/-- Witness for C5: adding the edge 0→1 of the example machine a second
time returns success and the very same machine. -/
theorem add_transition_idem_witness :
    exM.WF ∧ exM.state_nr ≤ 32 ∧ 0 < exM.state_nr ∧ 1 < exM.state_nr ∧
    state_machine_add_transition (state_machine_add_transition exM 0 1).fst 0 1 =
      ((state_machine_add_transition exM 0 1).fst, true) :=
  ⟨by decide, by decide, by decide, by decide,
   add_transition_idem exM 0 1 (by decide) (by decide) (by decide) (by decide)⟩

/-- Any slot of a freshly initialised machine. -/
theorem stateAt_init (R E : Type) (n i j : Nat) (h : j < n) :
    (state_machine_init R E n i).stateAt j =
      { id := j, valid_target := 0
        private_data := { enabled := false, run := none, enter := none } } := by
  simp only [state_machine_init, Fsm.stateAt, List.getD_eq_getElem?_getD,
    List.getElem?_map, List.getElem?_range h, Option.map_some]
  rfl

/-- C6 (code bug): the claim requires `actual` and `target` to lie in
`[0, state_nr)` already immediately after construction, for every
`initial_state` argument, but `state_machine_init` stores `initial_state`
into both fields without any bounds check: with `state_nr = 2` and
`initial_state = 5` the machine starts with `target_state = 5` and an
out-of-range `actual_state` reference, violating the invariant. -/
theorem init_unchecked_initial_state :
    (state_machine_init Unit Unit 2 5).target_state = 5 ∧
    (state_machine_init Unit Unit 2 5).actual_state = 5 ∧
    (state_machine_init Unit Unit 2 5).state_nr = 2 ∧
    ¬ ((state_machine_init Unit Unit 2 5).target_state <
        (state_machine_init Unit Unit 2 5).state_nr) ∧
    ¬ ((state_machine_init Unit Unit 2 5).actual_state <
        (state_machine_init Unit Unit 2 5).state_nr) := by
  decide

/-- C7: Construction postcondition.  For every `state_nr` and every
`initial_state < state_nr`, immediately after `state_machine_init` the
accessor `state_machine_get_state` returns `initial_state`, the actual and
target references are equal (no transition pending), and every one of the
`state_nr` slots is disabled, edge-free, and carries the identity equal to
its index. -/
theorem init_postcondition (R E : Type) (n i : Nat) (h : i < n) :
    state_machine_get_state (state_machine_init R E n i) = i ∧
    (state_machine_init R E n i).actual_state =
      (state_machine_init R E n i).target_state ∧
    (state_machine_init R E n i).target_state = i ∧
    (state_machine_init R E n i).states.length = n ∧
    (∀ j, j < n →
      ((state_machine_init R E n i).stateAt j).id = j ∧
      ((state_machine_init R E n i).stateAt j).private_data.enabled = false ∧
      ((state_machine_init R E n i).stateAt j).valid_target = 0) := by
  refine ⟨?_, rfl, rfl, by simp [state_machine_init], fun j hj => ?_⟩
  · simp only [state_machine_get_state]
    rw [show (state_machine_init R E n i).actual_state = i from rfl, stateAt_init R E n i i h]
  · rw [stateAt_init R E n i j hj]
    exact ⟨rfl, rfl, rfl⟩

/-- Witness for C7: a 3-state machine created in state 1. -/
theorem init_postcondition_witness :
    1 < 3 ∧
    (state_machine_get_state (state_machine_init Unit Unit 3 1) = 1 ∧
     (state_machine_init Unit Unit 3 1).actual_state =
       (state_machine_init Unit Unit 3 1).target_state ∧
     (state_machine_init Unit Unit 3 1).target_state = 1 ∧
     (state_machine_init Unit Unit 3 1).states.length = 3 ∧
     (∀ j, j < 3 →
       ((state_machine_init Unit Unit 3 1).stateAt j).id = j ∧
       ((state_machine_init Unit Unit 3 1).stateAt j).private_data.enabled = false ∧
       ((state_machine_init Unit Unit 3 1).stateAt j).valid_target = 0)) :=
  ⟨by decide, init_postcondition Unit Unit 3 1 (by decide)⟩

/-- C8 (code bug): on a NULL machine the C source executes `return(-1)`
from the `_Bool`-returning functions `state_machine_add_state` and
`state_machine_go_to_state`; converted to `_Bool`, `-1` is `true` — the
*success* value — contradicting the header's "true if successful" contract,
so these calls do not report failure.  `state_machine_run` on NULL does
return the out-of-range sentinel `(uint32_t)(-1) = 4294967295` with no
callback invoked, as the claim states. -/
theorem null_machine_error_returns :
    state_machine_add_state (R := Unit) (E := Unit) none 0 none none = (none, true) ∧
    state_machine_go_to_state (R := Unit) (E := Unit) none 0 = (none, true) ∧
    state_machine_run (R := Unit) (E := Unit) (A := Unit) none () =
      (none, 4294967295, []) ∧
    cBoolOfInt (-1) = true ∧
    cUInt32OfInt (-1) = 4294967295 := by
  decide

/-- C9: Self-transition edge case.  If the actual state has a registered
self-edge, requesting a transition to the actual state itself succeeds but
merely sets `target_state` to the value `actual_state` already has, so the
following `state_machine_run` call takes the stay branch: it invokes the
stay callback (when present), never an enter callback. -/
theorem self_transition_only_stays (fsm : Fsm R E) (arg : A) (hwf : fsm.WF)
    (hself : maskMem (fsm.stateAt fsm.actual_state).valid_target fsm.actual_state) :
    state_machine_go_to_state (some fsm) fsm.actual_state =
      (some { fsm with target_state := fsm.actual_state }, true) ∧
    state_machine_run (some { fsm with target_state := fsm.actual_state }) arg =
      (some { fsm with target_state := fsm.actual_state }, fsm.actual_state,
        stayEvents (fsm.stateAt fsm.actual_state).private_data.run arg) ∧
    (∀ ev ∈ (stayEvents (fsm.stateAt fsm.actual_state).private_data.run arg :
        List (FsmEvent R E A)), ev.isEnter = false) := by
  obtain ⟨hlen, hact, htgt, hid, hmaskwf⟩ := hwf
  have hids : (fsm.stateAt fsm.actual_state).id = fsm.actual_state := hid _ hact
  refine ⟨?_, ?_, ?_⟩
  · simp only [state_machine_go_to_state,
      if_neg (by omega : ¬ fsm.actual_state ≥ fsm.state_nr)]
    rw [if_pos (show (fsm.stateAt fsm.actual_state).valid_target &&&
        1 <<< fsm.actual_state ≠ 0 from hself)]
  · have hcond : (({ fsm with target_state := fsm.actual_state } : Fsm R E).stateAt
        ({ fsm with target_state := fsm.actual_state } : Fsm R E).actual_state).id =
        ({ fsm with target_state := fsm.actual_state } : Fsm R E).target_state := hids
    simp only [state_machine_run, if_pos hcond]
    rw [show (({ fsm with target_state := fsm.actual_state } : Fsm R E).stateAt
        ({ fsm with target_state := fsm.actual_state } : Fsm R E).actual_state).id =
        fsm.actual_state from hids]
    rfl
  · intro ev hev
    cases hcb : (fsm.stateAt fsm.actual_state).private_data.run with
    | none => rw [hcb] at hev; simp [stayEvents] at hev
    | some cb =>
      rw [hcb] at hev
      simp only [stayEvents, List.mem_singleton] at hev
      subst hev
      rfl

/-- Witness for C9: `exM` sits in state 0 and carries the self-edge 0→0;
the self-request succeeds, leaves target equal to current, and the next
tick fires only state 0's stay callback. -/
theorem self_transition_only_stays_witness :
    exM.WF ∧
    maskMem (exM.stateAt exM.actual_state).valid_target exM.actual_state ∧
    (state_machine_go_to_state (some exM) exM.actual_state =
      (some { exM with target_state := exM.actual_state }, true) ∧
    state_machine_run (some { exM with target_state := exM.actual_state }) (7 : Nat) =
      (some { exM with target_state := exM.actual_state }, exM.actual_state,
        stayEvents (exM.stateAt exM.actual_state).private_data.run 7) ∧
    (∀ ev ∈ (stayEvents (exM.stateAt exM.actual_state).private_data.run 7 :
        List (FsmEvent Nat Nat Nat)), ev.isEnter = false)) :=
  ⟨by decide, by decide, self_transition_only_stays exM 7 (by decide) (by decide)⟩

/-- C10: Replacing a pending transition.  With the machine still in its
actual state and a transition to `b` pending, a second request for `c` is
validated against the *actual* state's mask (the hypothesis `hmem` concerns
only the actual state's `valid_target`, not `b`'s); on success it
overwrites the pending target with `c`, and the next run enters `c`,
invoking only `c`'s enter callback with the identity of the actual state as
the exit state — `b`'s enter callback is never invoked. -/
theorem replace_pending_transition (fsm : Fsm R E) (arg : A) (b c : Nat)
    (hwf : fsm.WF) (hpend : fsm.target_state = b) (hba : b ≠ fsm.actual_state)
    (hc : c < fsm.state_nr) (hca : c ≠ fsm.actual_state)
    (hmem : maskMem (fsm.stateAt fsm.actual_state).valid_target c) :
    state_machine_go_to_state (some fsm) c =
      (some { fsm with target_state := c }, true) ∧
    state_machine_run (some { fsm with target_state := c }) arg =
      (some { fsm with target_state := c, actual_state := c }, c,
        enterEvents (fsm.stateAt c).private_data.enter fsm.actual_state arg) ∧
    (∀ cb ex2, FsmEvent.enter cb ex2 arg ∈
        (enterEvents (fsm.stateAt c).private_data.enter fsm.actual_state arg :
          List (FsmEvent R E A)) →
      (fsm.stateAt c).private_data.enter = some cb ∧ ex2 = fsm.actual_state) := by
  obtain ⟨hlen, hact, htgt, hid, hmaskwf⟩ := hwf
  have hidact : (fsm.stateAt fsm.actual_state).id = fsm.actual_state := hid _ hact
  have hidc : (fsm.stateAt c).id = c := hid _ hc
  refine ⟨?_, ?_, ?_⟩
  · simp only [state_machine_go_to_state, if_neg (by omega : ¬ c ≥ fsm.state_nr)]
    rw [if_pos (show (fsm.stateAt fsm.actual_state).valid_target &&& 1 <<< c ≠ 0 from hmem)]
  · have hcond : ¬ ((({ fsm with target_state := c } : Fsm R E).stateAt
        ({ fsm with target_state := c } : Fsm R E).actual_state).id =
        ({ fsm with target_state := c } : Fsm R E).target_state) := by
      rw [show (({ fsm with target_state := c } : Fsm R E).stateAt
          ({ fsm with target_state := c } : Fsm R E).actual_state).id =
          fsm.actual_state from hidact]
      exact fun hx => hca hx.symm
    simp only [state_machine_run, if_neg hcond, state_machine_get_state]
    rw [show (({ fsm with target_state := c, actual_state := c } : Fsm R E).stateAt c).id =
        c from hidc]
    rw [show (({ fsm with target_state := c } : Fsm R E).stateAt
        ({ fsm with target_state := c } : Fsm R E).actual_state).id =
        fsm.actual_state from hidact]
    rfl
  · intro cb ex2 hev
    cases hcb : (fsm.stateAt c).private_data.enter with
    | none => rw [hcb] at hev; simp [enterEvents] at hev
    | some f =>
      rw [hcb] at hev
      simp only [enterEvents, List.mem_singleton, FsmEvent.enter.injEq] at hev
      obtain ⟨hcb2, hex⟩ := hev
      subst hcb2
      exact ⟨rfl, hex.1⟩

/-- Witness for C10: `exMPending` has the transition 0→1 pending; a second
request for state 2 succeeds (edge 0→2 is registered on the actual state 0),
overwrites the pending target, and the next run enters state 2 with enter
callback 22 and exit state 0 — callback 21 of state 1 never fires. -/
theorem replace_pending_transition_witness :
    exMPending.WF ∧ exMPending.target_state = 1 ∧ (1 ≠ exMPending.actual_state) ∧
    2 < exMPending.state_nr ∧ (2 ≠ exMPending.actual_state) ∧
    maskMem (exMPending.stateAt exMPending.actual_state).valid_target 2 ∧
    (state_machine_go_to_state (some exMPending) 2 =
      (some { exMPending with target_state := 2 }, true) ∧
    state_machine_run (some { exMPending with target_state := 2 }) (7 : Nat) =
      (some { exMPending with target_state := 2, actual_state := 2 }, 2,
        enterEvents (exMPending.stateAt 2).private_data.enter exMPending.actual_state 7) ∧
    (∀ cb ex2, FsmEvent.enter cb ex2 (7 : Nat) ∈
        (enterEvents (exMPending.stateAt 2).private_data.enter exMPending.actual_state 7 :
          List (FsmEvent Nat Nat Nat)) →
      (exMPending.stateAt 2).private_data.enter = some cb ∧ ex2 = exMPending.actual_state)) :=
  ⟨by decide, by decide, by decide, by decide, by decide, by decide,
   replace_pending_transition exMPending 7 1 2 (by decide) (by decide) (by decide)
     (by decide) (by decide) (by decide)⟩

end LibSlMachine
